import Mathlib

/-!
Verification of the status-to-selection-to-stage reconciliation logic of
`git-quick-add` (src/lib.rs, src/main.rs).

The embedding is shallow: the `git2` collaborator is modelled by plain data.
A raw status record (`git2::StatusEntry`) carries a bitflag status value and
two optional diff deltas (`head_to_index`, `index_to_workdir`), each delta
exposing an `old_file` and `new_file` with an optional path (`path()` on the
Rust side returns `None` when the underlying path is absent).  Index
mutations and console output performed by the reconciler are recorded as an
explicit event trace; `process::exit` and propagated `git2::Error` values
become constructors of a result type.  Console styling (colors/bold) is
abstracted away: only the text content of each line is modelled.
-/

set_option autoImplicit false

namespace GitQuickAdd

/- libgit2 status bitflag values, as re-exported by the `git2` crate. -/

def STATUS_INDEX_NEW : Nat := 1

def STATUS_INDEX_MODIFIED : Nat := 2

def STATUS_INDEX_DELETED : Nat := 4

def STATUS_INDEX_RENAMED : Nat := 8

def STATUS_INDEX_TYPECHANGE : Nat := 16

def STATUS_WT_NEW : Nat := 128

def STATUS_WT_MODIFIED : Nat := 256

def STATUS_IGNORED : Nat := 16384

def STATUS_CONFLICTED : Nat := 32768

/-- `struct PathItems { path, is_staged, is_selected }` from src/lib.rs. -/
structure PathItems where
  path : String
  is_staged : Bool
  is_selected : Bool
deriving DecidableEq, Repr

/-- One side of a diff delta; `path` is `none` when `DiffFile::path()` returns `None`. -/
structure DiffFile where
  path : Option String
deriving DecidableEq, Repr

/-- A diff delta as exposed by `git2::DiffDelta` (only the parts the code reads). -/
structure DiffDelta where
  old_file : DiffFile
  new_file : DiffFile
deriving DecidableEq, Repr

/-- A raw per-path status record (`git2::StatusEntry`): the bitflag `status()`
value plus the two optional deltas `head_to_index()` and `index_to_workdir()`. -/
structure StatusEntry where
  status : Nat
  head_to_index : Option DiffDelta
  index_to_workdir : Option DiffDelta
deriving DecidableEq, Repr

/-- The per-record body of the `for diff_entry in statuses.iter()` loop in
`get_paths` (src/lib.rs lines 29-71): the `and_then`/`or_else` chain.
`x.or_else(|| Some(b)).unwrap()` and `x.unwrap_or_else(|| b)` are both
rendered as `x.getD b` (the `unwrap` is total because the `or_else` arm
always returns `Some`). -/
def resolveEntry (e : StatusEntry) : PathItems :=
  ((e.head_to_index.bind fun d =>
      d.new_file.path.map fun p =>
        { path := p, is_staged := true, is_selected := false }).getD
    (((e.index_to_workdir.bind fun d =>
        d.new_file.path.map fun p =>
          { path := p, is_staged := false, is_selected := false }).orElse
      fun _ =>
        e.index_to_workdir.bind fun d =>
          d.old_file.path.map fun p =>
            { path := p, is_staged := false, is_selected := false }).getD
      { path := "<unknown>", is_staged := false, is_selected := false }))

/-- The clean-working-tree message printed by `get_paths` (styling stripped). -/
def cleanMsg : String := "✔ working tree clean ✔"

/-- Outcome of `get_paths`: either the function returns `Ok(items)` after
printing `prints`, or it calls `process::exit(code)` after printing `prints`. -/
inductive ResolverOutcome where
  | ok (prints : List String) (items : List PathItems)
  | exitProcess (prints : List String) (code : Nat)
deriving DecidableEq, Repr

/-- `get_paths` from src/lib.rs (lines 14-83).  Records whose status is
EXACTLY `Status::IGNORED` are skipped (`continue`); the loop otherwise pushes
`resolveEntry` of each record, so the kept items are a `filter` + `map`.
An empty status list returns `Ok(vec![])` after printing the clean message;
a nonempty status list whose records were all skipped prints the clean
message and calls `process::exit(1)`. -/
def get_paths (statuses : List StatusEntry) : ResolverOutcome :=
  if statuses.isEmpty then ResolverOutcome.ok [cleanMsg] []
  else
    let items := (statuses.filter fun e => e.status != STATUS_IGNORED).map resolveEntry
    if items.isEmpty then ResolverOutcome.exitProcess [cleanMsg] 1
    else ResolverOutcome.ok [] items

/-- `paths[index].is_selected = true` from `choose_files`: Rust indexing
panics when `index` is out of bounds, hence the `Option`. -/
def markSelected : List PathItems → Nat → Option (List PathItems)
  | [], _ => none
  | it :: rest, 0 => some ({ it with is_selected := true } :: rest)
  | it :: rest, Nat.succ n => (markSelected rest n).map fun r => it :: r

/-- The pure tail of `choose_files` (src/lib.rs lines 92-114): given the
indices returned by the multi-select prompt, clone the input list and set
`is_selected := true` at each returned index.  The prompt itself (labels =
paths, defaults = `is_staged`, abort handling) is the external collaborator
and is modelled by the `selections` argument. -/
def choose_files (path_items : List PathItems) (selections : List Nat) :
    Option (List PathItems) :=
  selections.foldlM markSelected path_items

/-- Which fallible git operations succeed in a run of the reconciler:
`repo.head()?.peel(..)?` (headOk), `repo.reset_default(..)?` (resetOk),
`index.add_path(p)` (addOk) and `index.write()` (writeOk). -/
structure GitEnv where
  headOk : Bool
  resetOk : String → Bool
  addOk : String → Bool
  writeOk : Bool

/-- The all-operations-succeed environment. -/
def happyEnv : GitEnv :=
  { headOk := true, resetOk := fun _ => true, addOk := fun _ => true,
    writeOk := true }

/-- Observable actions of `git_add_selected`: index mutations and console
output, in the order they happen. -/
inductive Event where
  | indexRead
  | resetDefault (path : String)
  | addPath (path : String)
  | indexWrite
  | print (s : String)
  | eprint (s : String)
deriving DecidableEq, Repr

/-- How a run of `git_add_selected` ends: `ok` (returns `Ok(())`), `errGit`
(a `?` propagated a `git2::Error` to the caller), or `exited` (the function
called `process::exit`).  Each carries the events emitted up to that point. -/
inductive RunResult where
  | ok (events : List Event)
  | errGit (events : List Event)
  | exited (code : Nat) (events : List Event)
deriving DecidableEq, Repr

/-- Log line pushed for a staged path (styling stripped): `" - Staged: {path}"`. -/
def stagedLog (p : String) : String := " - Staged: " ++ p

/-- Log line pushed for an unstaged path: `" - Unstaged: {path}"`. -/
def unstagedLog (p : String) : String := " - Unstaged: " ++ p

/-- The `for item in paths` loop of `git_add_selected` (src/lib.rs lines
129-175), threading the emitted events and the accumulated `logs` vector.
On loop exit the joined log is printed.  Branches, in source order:
unstage (`is_staged && !is_selected`): resolve HEAD (`?`), reset the index
entry (`?`), push an "Unstaged" log line; stage (`!is_staged && is_selected`):
`add_path` (exit(1) printing the error on failure), push a "Staged" log
line, `index.write()` (exit(1) printing "Failed to write index" on failure);
otherwise no mutation, push a log line matching the current staged state. -/
def gasLoop (env : GitEnv) : List PathItems → List Event → List String → RunResult
  | [], evts, logs =>
      RunResult.ok (evts ++ [Event.print (String.intercalate "\n" logs)])
  | item :: rest, evts, logs =>
      if item.is_staged && !item.is_selected then
        if env.headOk then
          if env.resetOk item.path then
            gasLoop env rest (evts ++ [Event.resetDefault item.path])
              (logs ++ [unstagedLog item.path])
          else RunResult.errGit evts
        else RunResult.errGit evts
      else if !item.is_staged && item.is_selected then
        if env.addOk item.path then
          if env.writeOk then
            gasLoop env rest (evts ++ [Event.addPath item.path, Event.indexWrite])
              (logs ++ [stagedLog item.path])
          else
            RunResult.exited 1
              (evts ++ [Event.addPath item.path, Event.print "Failed to write index"])
        else RunResult.exited 1 (evts ++ [Event.eprint "add_path error"])
      else if item.is_staged then
        gasLoop env rest evts (logs ++ [stagedLog item.path])
      else
        gasLoop env rest evts (logs ++ [unstagedLog item.path])

/-- `git_add_selected` from src/lib.rs (lines 122-178): read the index once
(`repo.index()?`), print the header, run the per-item loop, print the joined
logs after the loop. -/
def git_add_selected (env : GitEnv) (paths : List PathItems) : RunResult :=
  gasLoop env paths [Event.indexRead, Event.print "Changes Made:"] []

/-- The events emitted by a run, whatever way it ended. -/
def eventsOf : RunResult → List Event
  | RunResult.ok evts => evts
  | RunResult.errGit evts => evts
  | RunResult.exited _ evts => evts

/-- Whether a run ended by propagating a `git2::Error`. -/
def isErrGit : RunResult → Bool
  | RunResult.errGit _ => true
  | _ => false

/-- main's handling of the `git_add_selected` result (src/main.rs lines
18-20): `unwrap_or_else(|_| println!("Failed to stage files"))` — on `Err`
it prints the message and FALLS THROUGH, so `main` returns normally and the
process exits 0; an in-function `process::exit(code)` keeps its code.
Returns (process exit code, full event trace). -/
def mainReconcileStep (env : GitEnv) (paths : List PathItems) : Nat × List Event :=
  match git_add_selected env paths with
  | RunResult.ok evts => (0, evts)
  | RunResult.errGit evts => (0, evts ++ [Event.print "Failed to stage files"])
  | RunResult.exited c evts => (c, evts)

/-- What a whole run of `main` did: the process exit code and whether
`git_add_selected` was invoked at all. -/
structure MainResult where
  exitCode : Nat
  reconcilerInvoked : Bool
deriving DecidableEq, Repr

/-- The control flow of `main` (src/main.rs) after the repository opened:
`get_paths`, then `choose_files` with the prompt's selections, then
`git_add_selected`.  `none` models the panic of an out-of-bounds selection
index inside `choose_files`. -/
def mainFlow (statuses : List StatusEntry) (selections : List Nat)
    (env : GitEnv) : Option MainResult :=
  match get_paths statuses with
  | ResolverOutcome.exitProcess _ c =>
      some { exitCode := c, reconcilerInvoked := false }
  | ResolverOutcome.ok _ items =>
      (choose_files items selections).map fun chosen =>
        { exitCode := (mainReconcileStep env chosen).1, reconcilerInvoked := true }

/- Spec-side definitions, written from the spec's / claims' words, to be
compared with the embedded source functions. -/

/-- Decision table of spec §4.2, mutation column: unstage resets the index
entry to HEAD; stage adds the path and (in this code) writes the index; the
two agreeing rows perform no index mutation. -/
def itemOps (it : PathItems) : List Event :=
  if it.is_staged && !it.is_selected then [Event.resetDefault it.path]
  else if !it.is_staged && it.is_selected then
    [Event.addPath it.path, Event.indexWrite]
  else []

/-- Decision table of spec §4.2, log column: "Unstaged" for the unstage row
and the neither row, "Staged" for the stage row and the both row. -/
def logLine (it : PathItems) : String :=
  if it.is_staged && !it.is_selected then unstagedLog it.path
  else if !it.is_staged && it.is_selected then stagedLog it.path
  else if it.is_staged then stagedLog it.path
  else unstagedLog it.path

/-- Workdir-side fallback of the amended path-resolution cascade: an
index-vs-workdir delta's new-file path, else its old-file path, else the
sentinel; always `is_staged = false`. -/
def resolveWorkdirSpec (e : StatusEntry) : PathItems :=
  match e.index_to_workdir with
  | some d =>
      match d.new_file.path with
      | some p => { path := p, is_staged := false, is_selected := false }
      | none =>
          match d.old_file.path with
          | some q => { path := q, is_staged := false, is_selected := false }
          | none => { path := "<unknown>", is_staged := false, is_selected := false }
  | none => { path := "<unknown>", is_staged := false, is_selected := false }

/-- The amended priority cascade (claim C2 as corrected): a HEAD-vs-index
delta is used — with `is_staged = true` — only when it exists AND exposes a
new-file path; otherwise resolution falls through to the workdir side. -/
def resolveSpecOrder (e : StatusEntry) : PathItems :=
  match e.head_to_index with
  | some d =>
      match d.new_file.path with
      | some p => { path := p, is_staged := true, is_selected := false }
      | none => resolveWorkdirSpec e
  | none => resolveWorkdirSpec e

/-- "Any index-side flag is present (new/modified/deleted/renamed/
type-changed in index, or conflicted)" — spec §4.1's staged-determination
input, as a bitmask test. -/
def hasIndexFlags (s : Nat) : Bool :=
  (s &&& (STATUS_INDEX_NEW ||| STATUS_INDEX_MODIFIED ||| STATUS_INDEX_DELETED |||
    STATUS_INDEX_RENAMED ||| STATUS_INDEX_TYPECHANGE ||| STATUS_CONFLICTED)) != 0

/-- Membership of a Nat in a list of selection indices. -/
def memNat (j : Nat) : List Nat → Bool
  | [] => false
  | i :: rest => (i == j) || memNat j rest

/-- Claim C10's description of `choose_files`: same list, same order, `path`
and `is_staged` untouched, `is_selected` true exactly when the item's index
is in the selection set or it was already true; `j` is the index of the
first element of the argument list. -/
def applySelections (sel : List Nat) : Nat → List PathItems → List PathItems
  | _, [] => []
  | j, it :: rest =>
      { it with is_selected := it.is_selected || memNat j sel } ::
        applySelections sel (j + 1) rest

/-- Total version of `paths[i].is_selected = true` (identity out of bounds);
`markSelected` agrees with it in bounds. -/
def updAt : Nat → List PathItems → List PathItems
  | _, [] => []
  | 0, it :: rest => { it with is_selected := true } :: rest
  | Nat.succ n, it :: rest => it :: updAt n rest

/-- A diff-file side either has no path or a nonempty one (libgit2 never
reports an empty path string). -/
def filePathNonempty (f : DiffFile) : Bool :=
  match f.path with
  | some p => p != ""
  | none => true

/-- Both sides of a delta satisfy `filePathNonempty`. -/
def deltaPathsNonempty : Option DiffDelta → Bool
  | none => true
  | some d => filePathNonempty d.old_file && filePathNonempty d.new_file

/-- Every path exposed by a record's deltas is nonempty. -/
def entryPathsNonempty (e : StatusEntry) : Bool :=
  deltaPathsNonempty e.head_to_index && deltaPathsNonempty e.index_to_workdir

/- Concrete inputs for counterexamples and witnesses. -/

/-- A record whose HEAD-vs-index delta exists but exposes no new-file path,
while the index-vs-workdir delta exposes one. -/
def entryH2iNoNewPath : StatusEntry :=
  { status := STATUS_INDEX_MODIFIED,
    head_to_index := some { old_file := { path := some "a.txt" }, new_file := { path := none } },
    index_to_workdir := some { old_file := { path := some "a.txt" }, new_file := { path := some "a.txt" } } }

/-- INDEX_NEW record whose HEAD-vs-index delta is present (the usual shape). -/
def entryIdxNewWithH2i : StatusEntry :=
  { status := STATUS_INDEX_NEW,
    head_to_index := some { old_file := { path := some "a.txt" }, new_file := { path := some "a.txt" } },
    index_to_workdir := none }

/-- A record with the SAME status flags as `entryIdxNewWithH2i` but only an
index-vs-workdir delta. -/
def entryIdxNewWithI2w : StatusEntry :=
  { status := STATUS_INDEX_NEW,
    head_to_index := none,
    index_to_workdir := some { old_file := { path := some "a.txt" }, new_file := { path := some "a.txt" } } }

/-- A record whose status is exactly IGNORED. -/
def entryIgnoredOnly : StatusEntry :=
  { status := STATUS_IGNORED, head_to_index := none, index_to_workdir := none }

/-- A record carrying IGNORED together with WT_NEW. -/
def entryIgnoredPlusWt : StatusEntry :=
  { status := STATUS_IGNORED ||| STATUS_WT_NEW,
    head_to_index := none,
    index_to_workdir := some { old_file := { path := some "ig.txt" }, new_file := { path := some "ig.txt" } } }

/-- Two items to stage. -/
def demoStagePair : List PathItems :=
  [{ path := "a.txt", is_staged := false, is_selected := true },
   { path := "b.txt", is_staged := false, is_selected := true }]

/-- One item to unstage. -/
def demoUnstageOne : List PathItems :=
  [{ path := "a.txt", is_staged := true, is_selected := false }]

/-- Items whose staged state already matches the selection. -/
def demoNoopPair : List PathItems :=
  [{ path := "a.txt", is_staged := true, is_selected := true },
   { path := "b.txt", is_staged := false, is_selected := false }]

/-- Two yet-unselected items for exercising `choose_files`. -/
def demoChooseItems : List PathItems :=
  [{ path := "a.txt", is_staged := false, is_selected := false },
   { path := "b.txt", is_staged := true, is_selected := false }]

/-- Environment in which HEAD cannot be resolved (empty repository) but
every other operation succeeds. -/
def headFailEnv : GitEnv :=
  { headOk := false, resetOk := fun _ => true, addOk := fun _ => true,
    writeOk := true }

/-- Concatenation of the decision table's per-item mutations, in record order. -/
def tableOps : List PathItems → List Event
  | [] => []
  | it :: rest => itemOps it ++ tableOps rest

/-- Placeholder item used as the default of `List.getD`. -/
def dummyItem : PathItems := { path := "", is_staged := false, is_selected := false }

/- Helper lemmas. -/

theorem happyEnv_headOk : happyEnv.headOk = true := rfl

theorem happyEnv_resetOk (p : String) : happyEnv.resetOk p = true := rfl

theorem happyEnv_addOk (p : String) : happyEnv.addOk p = true := rfl

theorem happyEnv_writeOk : happyEnv.writeOk = true := rfl

/-- In the all-success environment the reconciler loop appends, per item,
exactly the table's mutations to the trace and the table's log line to the
log, and prints the joined log last. -/
theorem gasLoop_happy (l : List PathItems) :
    ∀ (evts : List Event) (logs : List String),
      gasLoop happyEnv l evts logs =
        RunResult.ok (evts ++ tableOps l ++
          [Event.print (String.intercalate "\n" (logs ++ l.map logLine))]) := by
  induction l with
  | nil => intro evts logs; simp [gasLoop, tableOps]
  | cons item rest ih =>
      intro evts logs
      cases hs : item.is_staged <;> cases hsel : item.is_selected <;>
        simp [gasLoop, happyEnv_headOk, happyEnv_resetOk, happyEnv_addOk,
          happyEnv_writeOk, hs, hsel, ih, tableOps, itemOps, logLine,
          List.append_assoc]

/-- The reconciler loop never touches the environment when every item's
staged state already matches its selection: no mutations, one no-op log
line per item. -/
theorem gasLoop_noop (env : GitEnv) (l : List PathItems) :
    ∀ (evts : List Event) (logs : List String),
      (∀ it ∈ l, it.is_staged = it.is_selected) →
      gasLoop env l evts logs =
        RunResult.ok (evts ++
          [Event.print (String.intercalate "\n" (logs ++ l.map fun it =>
            if it.is_staged then stagedLog it.path else unstagedLog it.path))]) := by
  induction l with
  | nil => intro evts logs _; simp [gasLoop]
  | cons item rest ih =>
      intro evts logs h
      have hitem : item.is_staged = item.is_selected := h item (List.mem_cons_self item rest)
      have hrest : ∀ it ∈ rest, it.is_staged = it.is_selected := fun it hit =>
        h it (List.mem_cons_of_mem item hit)
      cases hs : item.is_staged <;>
        simp [gasLoop, hs, ← hitem, ih _ _ hrest, List.append_assoc]

/-- `tableOps` contains one `indexWrite` per stage-row item and no
`indexRead` at all. -/
theorem tableOps_counts (l : List PathItems) :
    (tableOps l).count Event.indexWrite =
      (l.filter fun it => !it.is_staged && it.is_selected).length ∧
    (tableOps l).count Event.indexRead = 0 := by
  induction l with
  | nil => simp [tableOps]
  | cons it rest ih =>
      cases hs : it.is_staged <;> cases hsel : it.is_selected <;>
        simp [tableOps, itemOps, hs, hsel, List.count_append, List.count_cons,
          ih.1, ih.2, List.filter_cons]

/-- C1. For every list of `ChangeItem`s run in an environment where all git
operations succeed, `git_add_selected` performs, per item and in record
order, exactly the decision table's mutations (unstage row: reset the index
entry; stage row: add the path — this code also writes the index; agreeing
rows: no mutation), and emits exactly one log line per item in record order
("Unstaged" for the unstage/neither rows, "Staged" for the stage/both
rows), printed as the final event, after all mutations. -/
theorem reconciler_decision_table (paths : List PathItems) :
    git_add_selected happyEnv paths =
      RunResult.ok (Event.indexRead :: Event.print "Changes Made:" ::
        (tableOps paths ++
          [Event.print (String.intercalate "\n" (paths.map logLine))])) := by
  have h := gasLoop_happy paths [Event.indexRead, Event.print "Changes Made:"] []
  simpa [git_add_selected] using h

/-- C7 counterexample. Two items to stage produce TWO `index.write` calls —
the write sits inside the per-item loop, so staging is not batched into a
single index-update call. -/
theorem two_stage_items_two_writes :
    (eventsOf (git_add_selected happyEnv demoStagePair)).count Event.indexWrite = 2 := by
  rfl

/-- C7 amended. The reconciler reads the index once per run, but performs
one `index.write` call per staged item rather than a single batched write:
the number of `indexWrite` events equals the number of stage-row items. -/
theorem write_count_per_staged_item (paths : List PathItems) :
    (eventsOf (git_add_selected happyEnv paths)).count Event.indexRead = 1 ∧
    (eventsOf (git_add_selected happyEnv paths)).count Event.indexWrite =
      (paths.filter fun it => !it.is_staged && it.is_selected).length := by
  have h := gasLoop_happy paths [Event.indexRead, Event.print "Changes Made:"] []
  rw [git_add_selected, h]
  simp [eventsOf, List.count_append, List.count_cons, (tableOps_counts paths).1,
    (tableOps_counts paths).2]

/-- C8. Reconciliation is idempotent: when every item's `is_staged` equals
its `is_selected` (what a second run's resolver sees after the first run
applied the selection), the reconciler performs zero index mutations — in
any environment — and logs every item as a no-op describing its current
state. -/
theorem reconciler_idempotent (env : GitEnv) (paths : List PathItems)
    (h : ∀ it ∈ paths, it.is_staged = it.is_selected) :
    git_add_selected env paths =
      RunResult.ok [Event.indexRead, Event.print "Changes Made:",
        Event.print (String.intercalate "\n" (paths.map fun it =>
          if it.is_staged then stagedLog it.path else unstagedLog it.path))] := by
  have hrun := gasLoop_noop env paths [Event.indexRead, Event.print "Changes Made:"] [] h
  simpa [git_add_selected] using hrun

/-- Witness for C8 at a concrete already-reconciled list. -/
theorem reconciler_idempotent_witness :
    git_add_selected headFailEnv demoNoopPair =
      RunResult.ok [Event.indexRead, Event.print "Changes Made:",
        Event.print (String.intercalate "\n" (demoNoopPair.map fun it =>
          if it.is_staged then stagedLog it.path else unstagedLog it.path))] :=
  reconciler_idempotent headFailEnv demoNoopPair (by decide)

/-- C2 counterexample. A record whose HEAD-vs-index difference EXISTS but
exposes no new-file path: the claim's first rule would use it and set
`is_staged = true`, yet the code falls through to the index-vs-workdir
delta and resolves the item with `is_staged = false`. -/
theorem h2i_without_new_path_resolves_unstaged :
    entryH2iNoNewPath.head_to_index.isSome = true ∧
    resolveEntry entryH2iNoNewPath =
      { path := "a.txt", is_staged := false, is_selected := false } :=
  ⟨rfl, rfl⟩

/-- C2 amended. The resolver's strict priority order, per record: a
HEAD-vs-index delta that exists AND exposes a new-file path gives that path
with `is_staged = true`; otherwise an index-vs-workdir delta's new-file
path, else its old-file path, else the `"<unknown>"` sentinel, all with
`is_staged = false`. -/
theorem resolver_priority_order (e : StatusEntry) :
    resolveEntry e = resolveSpecOrder e := by
  obtain ⟨s, h2i, i2w⟩ := e
  cases h2i with
  | none =>
      cases i2w with
      | none => rfl
      | some d2 =>
          obtain ⟨⟨op2⟩, ⟨np2⟩⟩ := d2
          cases np2 <;> cases op2 <;> rfl
  | some d1 =>
      obtain ⟨⟨op1⟩, ⟨np1⟩⟩ := d1
      cases np1 with
      | some p => rfl
      | none =>
          cases i2w with
          | none => rfl
          | some d2 =>
              obtain ⟨⟨op2⟩, ⟨np2⟩⟩ := d2
              cases np2 <;> cases op2 <;> rfl

/-- The staged flag produced by the resolver records exactly whether the
HEAD-vs-index delta exists and exposes a new-file path. -/
theorem resolveEntry_is_staged (e : StatusEntry) :
    (resolveEntry e).is_staged =
      (e.head_to_index.bind fun d => d.new_file.path).isSome := by
  obtain ⟨s, h2i, i2w⟩ := e
  cases h2i with
  | none =>
      cases i2w with
      | none => rfl
      | some d2 =>
          obtain ⟨⟨op2⟩, ⟨np2⟩⟩ := d2
          cases np2 <;> cases op2 <;> rfl
  | some d1 =>
      obtain ⟨⟨op1⟩, ⟨np1⟩⟩ := d1
      cases np1 with
      | some p => rfl
      | none =>
          cases i2w with
          | none => rfl
          | some d2 =>
              obtain ⟨⟨op2⟩, ⟨np2⟩⟩ := d2
              cases np2 <;> cases op2 <;> rfl

/-- C3 counterexample. Two records with IDENTICAL status flags (INDEX_NEW)
get different `is_staged` values depending on which diff structure is
present — staged-determination is NOT a pure function of the status flags. -/
theorem staged_not_function_of_flags :
    entryIdxNewWithH2i.status = entryIdxNewWithI2w.status ∧
    (resolveEntry entryIdxNewWithH2i).is_staged = true ∧
    (resolveEntry entryIdxNewWithI2w).is_staged = false := by
  decide

/-- C3 amended. Staged-determination is a pure function of which diff
structure is present — `is_staged` is true iff the HEAD-vs-index delta
exists with a new-file path — and the status flags are never consulted.
For records obeying libgit2's coupling (that delta is present exactly when
an index-side flag — new/modified/deleted/renamed/type-changed/conflicted —
is set), `is_staged` equals the index-side-flag test, which on the claim's
four flag combinations yields `is_staged(INDEX_NEW) = true`,
`is_staged(WT_NEW alone) = false`,
`is_staged(WT_MODIFIED | INDEX_MODIFIED) = true`,
`is_staged(no flags) = false`. -/
theorem staged_from_diff_presence (e : StatusEntry)
    (h : (e.head_to_index.bind fun d => d.new_file.path).isSome =
      hasIndexFlags e.status) :
    (resolveEntry e).is_staged = hasIndexFlags e.status ∧
    hasIndexFlags STATUS_INDEX_NEW = true ∧
    hasIndexFlags STATUS_WT_NEW = false ∧
    hasIndexFlags (STATUS_WT_MODIFIED ||| STATUS_INDEX_MODIFIED) = true ∧
    hasIndexFlags 0 = false :=
  ⟨(resolveEntry_is_staged e).trans h, by decide, by decide, by decide, by decide⟩

/-- Witness for C3 (amended) at a concrete coupled INDEX_NEW record. -/
theorem staged_from_diff_presence_witness :
    (resolveEntry entryIdxNewWithH2i).is_staged = hasIndexFlags entryIdxNewWithH2i.status ∧
    hasIndexFlags STATUS_INDEX_NEW = true ∧
    hasIndexFlags STATUS_WT_NEW = false ∧
    hasIndexFlags (STATUS_WT_MODIFIED ||| STATUS_INDEX_MODIFIED) = true ∧
    hasIndexFlags 0 = false :=
  staged_from_diff_presence entryIdxNewWithH2i (by decide)

/-- Whenever `get_paths` returns `Ok(items)`, the items are exactly the
per-record resolutions of the records whose status is not exactly IGNORED,
in record order. -/
theorem get_paths_ok_shape (statuses : List StatusEntry) (prints : List String)
    (items : List PathItems)
    (hok : get_paths statuses = ResolverOutcome.ok prints items) :
    items = (statuses.filter fun e => e.status != STATUS_IGNORED).map resolveEntry := by
  cases statuses with
  | nil =>
      simp [get_paths] at hok
      simp [← hok.2]
  | cons a l =>
      by_cases hkept :
        (((a :: l).filter fun e => e.status != STATUS_IGNORED).map resolveEntry).isEmpty
      · simp [get_paths, hkept] at hok
      · simp [get_paths, hkept] at hok
        exact hok.2.symm

/-- A record all of whose delta paths are nonempty resolves to an item with
a nonempty path (the sentinel `"<unknown>"` covers the no-path case). -/
theorem resolveEntry_path_nonempty (e : StatusEntry)
    (h : entryPathsNonempty e = true) :
    ((resolveEntry e).path != "") = true := by
  obtain ⟨s, h2i, i2w⟩ := e
  simp only [entryPathsNonempty, Bool.and_eq_true] at h
  obtain ⟨h1, h2⟩ := h
  cases h2i with
  | none =>
      cases i2w with
      | none => rfl
      | some d2 =>
          obtain ⟨⟨op2⟩, ⟨np2⟩⟩ := d2
          simp only [deltaPathsNonempty, filePathNonempty, Bool.and_eq_true] at h2
          cases np2 with
          | some p => exact h2.2
          | none =>
              cases op2 with
              | some q => exact h2.1
              | none => rfl
  | some d1 =>
      obtain ⟨⟨op1⟩, ⟨np1⟩⟩ := d1
      simp only [deltaPathsNonempty, filePathNonempty, Bool.and_eq_true] at h1
      cases np1 with
      | some p => exact h1.2
      | none =>
          cases i2w with
          | none => rfl
          | some d2 =>
              obtain ⟨⟨op2⟩, ⟨np2⟩⟩ := d2
              simp only [deltaPathsNonempty, filePathNonempty, Bool.and_eq_true] at h2
              cases np2 with
              | some p => exact h2.2
              | none =>
                  cases op2 with
                  | some q => exact h2.1
                  | none => rfl

/-- C4 counterexample. With zero change records the program does NOT stop:
`get_paths` returns `Ok(vec![])` and main still invokes the reconciler (and
exits 0); with one exactly-ignored record the resolver calls
`process::exit(1)` — a NONZERO exit — so neither branch matches "terminates
successfully without invoking the reconciler". -/
theorem clean_tree_counterexample :
    mainFlow [] [] happyEnv = some { exitCode := 0, reconcilerInvoked := true } ∧
    mainFlow [entryIgnoredOnly] [] happyEnv =
      some { exitCode := 1, reconcilerInvoked := false } :=
  ⟨rfl, rfl⟩

/-- C4 amended. With zero change records the resolver prints the clean
message and returns an empty list, after which main still runs the
selection step and the reconciler on the empty list and exits 0; when every
record was filtered as exactly-ignored the resolver prints the clean
message and terminates the process with exit code 1, without the reconciler
ever being invoked. -/
theorem clean_tree_handling (statuses : List StatusEntry) (sel : List Nat)
    (env : GitEnv) (hall : ∀ e ∈ statuses, e.status = STATUS_IGNORED)
    (hne : statuses ≠ []) :
    mainFlow [] [] happyEnv = some { exitCode := 0, reconcilerInvoked := true } ∧
    mainFlow statuses sel env = some { exitCode := 1, reconcilerInvoked := false } := by
  refine ⟨rfl, ?_⟩
  have hfilter : (statuses.filter fun e => e.status != STATUS_IGNORED) = [] := by
    rw [List.filter_eq_nil_iff]
    intro e he
    simp [hall e he]
  obtain ⟨a, l, rfl⟩ : ∃ a l, statuses = a :: l := by
    cases statuses with
    | nil => exact absurd rfl hne
    | cons a l => exact ⟨a, l, rfl⟩
  simp [mainFlow, get_paths, hfilter]

/-- Witness for C4 (amended) at a concrete all-ignored status list. -/
theorem clean_tree_handling_witness :
    mainFlow [] [] happyEnv = some { exitCode := 0, reconcilerInvoked := true } ∧
    mainFlow [entryIgnoredOnly, entryIgnoredOnly] [2] headFailEnv =
      some { exitCode := 1, reconcilerInvoked := false } :=
  clean_tree_handling [entryIgnoredOnly, entryIgnoredOnly] [2] headFailEnv
    (by decide) (by decide)

/-- When HEAD cannot be resolved and every other operation succeeds, the
loop errors out at the first unstage item. -/
theorem gasLoop_headFail (env : GitEnv) (hH : env.headOk = false)
    (hA : ∀ p, env.addOk p = true) (hW : env.writeOk = true) :
    ∀ (l : List PathItems) (evts : List Event) (logs : List String),
      (∃ it ∈ l, it.is_staged = true ∧ it.is_selected = false) →
      isErrGit (gasLoop env l evts logs) = true := by
  intro l
  induction l with
  | nil =>
      intro evts logs hEx
      obtain ⟨it, hmem, _⟩ := hEx
      exact absurd hmem (List.not_mem_nil it)
  | cons item rest ih =>
      intro evts logs hEx
      obtain ⟨it, hmem, hstag, hsel⟩ := hEx
      cases hs : item.is_staged <;> cases hsl : item.is_selected
      · have hrest : it ∈ rest := by
          rcases List.mem_cons.mp hmem with rfl | h
          · simp [hs] at hstag
          · exact h
        simp only [gasLoop, hs, hsl]
        exact ih _ _ ⟨it, hrest, hstag, hsel⟩
      · have hrest : it ∈ rest := by
          rcases List.mem_cons.mp hmem with rfl | h
          · simp [hs] at hstag
          · exact h
        simp only [gasLoop, hs, hsl, hA, hW, Bool.not_false, Bool.true_and,
          if_true, Bool.false_and, Bool.false_eq_true, if_false]
        exact ih _ _ ⟨it, hrest, hstag, hsel⟩
      · simp [gasLoop, hs, hsl, hH, isErrGit]
      · have hrest : it ∈ rest := by
          rcases List.mem_cons.mp hmem with rfl | h
          · simp [hsl] at hsel
          · exact h
        simp only [gasLoop, hs, hsl]
        exact ih _ _ ⟨it, hrest, hstag, hsel⟩

/-- When the reconciler propagated a `git2::Error`, main prints
"Failed to stage files" and falls through to a normal return: exit code 0. -/
theorem mainReconcileStep_of_errGit (env : GitEnv) (paths : List PathItems)
    (h : isErrGit (git_add_selected env paths) = true) :
    mainReconcileStep env paths =
      (0, eventsOf (git_add_selected env paths) ++
        [Event.print "Failed to stage files"]) := by
  unfold mainReconcileStep
  cases hg : git_add_selected env paths with
  | ok evts => rw [hg] at h; simp [isErrGit] at h
  | errGit evts => simp [eventsOf]
  | exited c evts => rw [hg] at h; simp [isErrGit] at h

/-- C5 counterexample. One staged-but-deselected item with an unresolvable
HEAD: the unstage fails and the message is printed, but the process exit
code is 0, not nonzero. -/
theorem head_failure_exit_zero_cex :
    isErrGit (git_add_selected headFailEnv demoUnstageOne) = true ∧
    (mainReconcileStep headFailEnv demoUnstageOne).1 = 0 ∧
    (mainReconcileStep headFailEnv demoUnstageOne).2 =
      [Event.indexRead, Event.print "Changes Made:",
        Event.print "Failed to stage files"] :=
  ⟨rfl, rfl, rfl⟩

/-- C5 amended. For every reconciler run containing at least one unstage
item, if HEAD cannot be resolved (and no other operation fails first) the
unstage operation fails — `git_add_selected` propagates the error — and the
failure is reported to the user ("Failed to stage files"), but the process
terminates with exit code 0: main's error handler prints the message
without exiting nonzero. -/
theorem unstage_head_failure_reported_exit_zero (env : GitEnv)
    (paths : List PathItems) (hH : env.headOk = false)
    (hA : ∀ p, env.addOk p = true) (hW : env.writeOk = true)
    (hEx : ∃ it ∈ paths, it.is_staged = true ∧ it.is_selected = false) :
    isErrGit (git_add_selected env paths) = true ∧
    (mainReconcileStep env paths).1 = 0 ∧
    (mainReconcileStep env paths).2 =
      eventsOf (git_add_selected env paths) ++
        [Event.print "Failed to stage files"] := by
  have herr : isErrGit (git_add_selected env paths) = true :=
    gasLoop_headFail env hH hA hW paths _ _ hEx
  have hmain := mainReconcileStep_of_errGit env paths herr
  exact ⟨herr, by rw [hmain], by rw [hmain]⟩

/-- Witness for C5 (amended) at a concrete unstage item. -/
theorem unstage_head_failure_witness :
    isErrGit (git_add_selected headFailEnv demoUnstageOne) = true ∧
    (mainReconcileStep headFailEnv demoUnstageOne).1 = 0 ∧
    (mainReconcileStep headFailEnv demoUnstageOne).2 =
      eventsOf (git_add_selected headFailEnv demoUnstageOne) ++
        [Event.print "Failed to stage files"] :=
  unstage_head_failure_reported_exit_zero headFailEnv demoUnstageOne rfl
    (fun _ => rfl) rfl
    ⟨{ path := "a.txt", is_staged := true, is_selected := false }, by decide,
      rfl, rfl⟩

/-- C6 counterexample. A record carrying IGNORED together with WT_NEW is
NOT skipped — the exact-equality check `status() == Status::IGNORED` fails —
so the resolver does produce a `ChangeItem` for it. -/
theorem ignored_with_other_flags_not_skipped :
    get_paths [entryIgnoredPlusWt] =
      ResolverOutcome.ok []
        [{ path := "ig.txt", is_staged := false, is_selected := false }] :=
  rfl

/-- C6 amended. Records whose status is EXACTLY the ignored flag are
skipped entirely and never produce a `ChangeItem`; a record whose status
includes IGNORED alongside other flags is kept: the resolver's output is
exactly the resolution of the records whose status is not exactly IGNORED,
in record order. -/
theorem ignored_exact_skip (statuses : List StatusEntry) (prints : List String)
    (items : List PathItems)
    (hok : get_paths statuses = ResolverOutcome.ok prints items) :
    items = (statuses.filter fun e => e.status != STATUS_IGNORED).map resolveEntry :=
  get_paths_ok_shape statuses prints items hok

/-- Witness for C6 (amended): the exactly-ignored record contributes
nothing, the INDEX_NEW record one item. -/
theorem ignored_exact_skip_witness :
    [({ path := "a.txt", is_staged := true, is_selected := false } : PathItems)] =
      (([entryIgnoredOnly, entryIdxNewWithH2i].filter
        fun e => e.status != STATUS_IGNORED).map resolveEntry) :=
  ignored_exact_skip [entryIgnoredOnly, entryIdxNewWithH2i] []
    [{ path := "a.txt", is_staged := true, is_selected := false }] rfl

/-- C9. Whenever the resolver returns items and the repository reports only
nonempty delta paths (libgit2 never yields an empty path string), every
item's path is nonempty — the no-path case gets the `"<unknown>"` sentinel
instead of being omitted — and the output has exactly one item per kept
(not exactly-ignored) raw status record, in record order. -/
theorem resolver_output_invariant (statuses : List StatusEntry)
    (prints : List String) (items : List PathItems)
    (hp : statuses.all entryPathsNonempty = true)
    (hok : get_paths statuses = ResolverOutcome.ok prints items) :
    items = (statuses.filter fun e => e.status != STATUS_IGNORED).map resolveEntry ∧
    items.all (fun it => it.path != "") = true := by
  have hshape := get_paths_ok_shape statuses prints items hok
  refine ⟨hshape, ?_⟩
  subst hshape
  rw [List.all_eq_true]
  intro it hit
  obtain ⟨e, he, rfl⟩ := List.mem_map.mp hit
  have he2 : e ∈ statuses := (List.mem_filter.mp he).1
  exact resolveEntry_path_nonempty e (List.all_eq_true.mp hp e he2)

/-- Witness for C9 at a concrete status list. -/
theorem resolver_output_invariant_witness :
    ([({ path := "ig.txt", is_staged := false, is_selected := false } : PathItems)] =
      (([entryIgnoredPlusWt].filter fun e => e.status != STATUS_IGNORED).map
        resolveEntry)) ∧
    ([({ path := "ig.txt", is_staged := false, is_selected := false } : PathItems)].all
      (fun it => it.path != "") = true) :=
  resolver_output_invariant [entryIgnoredPlusWt] []
    [{ path := "ig.txt", is_staged := false, is_selected := false }]
    (by decide) rfl

theorem updAt_length : ∀ (i : Nat) (its : List PathItems),
    (updAt i its).length = its.length := by
  intro i its
  induction its generalizing i with
  | nil => cases i <;> rfl
  | cons it rest ih =>
      cases i with
      | zero => rfl
      | succ n => simp [updAt, ih]

theorem markSelected_eq_updAt : ∀ (its : List PathItems) (i : Nat),
    i < its.length → markSelected its i = some (updAt i its) := by
  intro its
  induction its with
  | nil => intro i hi; simp at hi
  | cons it rest ih =>
      intro i hi
      cases i with
      | zero => rfl
      | succ n =>
          have hn : n < rest.length := by simpa using hi
          simp [markSelected, updAt, ih n hn]

theorem foldl_updAt_length (sel : List Nat) : ∀ (its : List PathItems),
    (sel.foldl (fun acc i => updAt i acc) its).length = its.length := by
  induction sel with
  | nil => intro its; rfl
  | cons i rest ih => intro its; rw [List.foldl_cons, ih, updAt_length]

theorem choose_files_eq_foldl : ∀ (sel : List Nat) (its : List PathItems),
    (∀ i ∈ sel, i < its.length) →
    choose_files its sel = some (sel.foldl (fun acc i => updAt i acc) its) := by
  intro sel
  induction sel with
  | nil => intro its _; rfl
  | cons i rest ih =>
      intro its h
      have hi : i < its.length := h i (List.mem_cons_self i rest)
      have hrest : ∀ k ∈ rest, k < (updAt i its).length := by
        intro k hk
        rw [updAt_length]
        exact h k (List.mem_cons_of_mem i hk)
      rw [choose_files, List.foldlM_cons, markSelected_eq_updAt its i hi,
        List.foldl_cons]
      simpa using ih (updAt i its) hrest

theorem updAt_getD : ∀ (its : List PathItems) (i j : Nat) (d : PathItems),
    (updAt i its).getD j d =
      if i = j ∧ j < its.length then
        { its.getD j d with is_selected := true }
      else its.getD j d := by
  intro its
  induction its with
  | nil => intro i j d; simp [updAt]
  | cons it rest ih =>
      intro i j d
      cases i with
      | zero =>
          cases j with
          | zero => simp [updAt]
          | succ j => simp [updAt]
      | succ i =>
          cases j with
          | zero => simp [updAt]
          | succ j =>
              simp only [updAt, List.getD_cons_succ, List.length_cons]
              rw [ih]
              have hiff : (i = j ∧ j < rest.length) ↔
                  (i + 1 = j + 1 ∧ j + 1 < rest.length + 1) := by omega
              simp [hiff]

theorem foldl_updAt_getD : ∀ (sel : List Nat) (its : List PathItems) (j : Nat)
    (d : PathItems), j < its.length →
    ((sel.foldl (fun acc i => updAt i acc) its).getD j d).path =
      (its.getD j d).path ∧
    ((sel.foldl (fun acc i => updAt i acc) its).getD j d).is_staged =
      (its.getD j d).is_staged ∧
    ((sel.foldl (fun acc i => updAt i acc) its).getD j d).is_selected =
      ((its.getD j d).is_selected || memNat j sel) := by
  intro sel
  induction sel with
  | nil => intro its j d hj; simp [memNat]
  | cons i rest ih =>
      intro its j d hj
      have hlen : j < (updAt i its).length := by rw [updAt_length]; exact hj
      have h2 := ih (updAt i its) j d hlen
      rw [List.foldl_cons]
      refine ⟨?_, ?_, ?_⟩
      · rw [h2.1, updAt_getD]
        by_cases hij : i = j ∧ j < its.length <;> simp [hij]
      · rw [h2.2.1, updAt_getD]
        by_cases hij : i = j ∧ j < its.length <;> simp [hij]
      · rw [h2.2.2, updAt_getD]
        by_cases hij : i = j
        · subst hij
          simp [hj, memNat]
        · have hb : (i == j) = false := beq_eq_false_iff_ne.mpr hij
          simp [hij, memNat, hb]

theorem applySelections_length (sel : List Nat) : ∀ (j : Nat)
    (its : List PathItems), (applySelections sel j its).length = its.length := by
  intro j its
  induction its generalizing j with
  | nil => rfl
  | cons it rest ih => simp [applySelections, ih]

theorem applySelections_getD (sel : List Nat) :
    ∀ (its : List PathItems) (startJ j : Nat) (d : PathItems), j < its.length →
      ((applySelections sel startJ its).getD j d).path = (its.getD j d).path ∧
      ((applySelections sel startJ its).getD j d).is_staged =
        (its.getD j d).is_staged ∧
      ((applySelections sel startJ its).getD j d).is_selected =
        ((its.getD j d).is_selected || memNat (startJ + j) sel) := by
  intro its
  induction its with
  | nil => intro startJ j d hj; simp at hj
  | cons it rest ih =>
      intro startJ j d hj
      cases j with
      | zero => simp [applySelections]
      | succ j =>
          have hj2 : j < rest.length := by simpa using hj
          have h2 := ih (startJ + 1) j d hj2
          have harith : startJ + 1 + j = startJ + (j + 1) := by omega
          rw [harith] at h2
          simpa [applySelections] using h2

theorem pathItems_ext (a b : PathItems) (h1 : a.path = b.path)
    (h2 : a.is_staged = b.is_staged) (h3 : a.is_selected = b.is_selected) :
    a = b := by
  cases a
  cases b
  simp_all

theorem getD_of_lt (l : List PathItems) (n : Nat) (d : PathItems)
    (h : n < l.length) : l.getD n d = l.get ⟨n, h⟩ := by
  rw [List.getD_eq_getElem?_getD, List.getElem?_eq_getElem h]
  simp [List.get_eq_getElem]

theorem foldl_eq_applySelections (sel : List Nat) (its : List PathItems) :
    sel.foldl (fun acc i => updAt i acc) its = applySelections sel 0 its := by
  apply List.ext_get
  · rw [foldl_updAt_length, applySelections_length]
  · intro n h1 h2
    have hn : n < its.length := by rw [foldl_updAt_length] at h1; exact h1
    have hL := foldl_updAt_getD sel its n dummyItem hn
    have hR := applySelections_getD sel its 0 n dummyItem hn
    rw [Nat.zero_add] at hR
    rw [← getD_of_lt _ n dummyItem h1, ← getD_of_lt _ n dummyItem h2]
    exact pathItems_ext _ _ (hL.1.trans hR.1.symm) (hL.2.1.trans hR.2.1.symm)
      (hL.2.2.trans hR.2.2.symm)

/-- C10. For every input list and every in-bounds selection index set,
`choose_files` returns (no panic) the same-length, same-order list in which
each item's `path` and `is_staged` are unchanged and `is_selected` is true
exactly when the item's index is in the selection set or `is_selected` was
already true in the input — which is what `applySelections` says, item by
item. -/
theorem choose_files_frame (items : List PathItems) (sel : List Nat)
    (h : ∀ i ∈ sel, i < items.length) :
    choose_files items sel = some (applySelections sel 0 items) ∧
    (applySelections sel 0 items).length = items.length := by
  refine ⟨?_, applySelections_length sel 0 items⟩
  rw [choose_files_eq_foldl sel items h, foldl_eq_applySelections]

/-- Witness for C10 at a concrete list and selection. -/
theorem choose_files_frame_witness :
    choose_files demoChooseItems [0] = some (applySelections [0] 0 demoChooseItems) ∧
    (applySelections [0] 0 demoChooseItems).length = demoChooseItems.length :=
  choose_files_frame demoChooseItems [0] (by decide)

end GitQuickAdd
